import Mathlib

/-
Verification development for the serialport_detect event-stream core.

The repository ships only two client scripts (src/examples/listen.js and
src/examples/monitor.js) that exercise an external binding exposing
configureLogger, listen and a Monitor class; the binding itself is not in
the repository.  The definitions below are therefore a shallow embedding
of the event-stream / cancellation core described by the specification:
a per-subscription StreamHandle with states Active, Aborting and Closed,
a one-shot CompletionSignal, a push-mode CallbackChannel adapter, a
pull-mode PullStream adapter, and a Monitor owning at most one active
handle.  Source-driven and consumer-driven interactions are modelled as
discrete operations applied atomically in some interleaving order.
-/

namespace SerialDetect

/-- Modelled from the spec: terminal outcome of a CompletionSignal — the
binding implementation is absent from the repository, so the one-shot
signal is modelled from section 3 of the specification: success on
natural completion, cancellation on abort, failure carrying the source
error. -/
inductive Outcome (ε : Type) where
  | success
  | cancelled
  | failure (e : ε)
deriving DecidableEq

/-- Modelled from the spec: lifecycle state of a StreamHandle
(Active, Aborting, Closed). -/
inductive HState where
  | active
  | aborting
  | closed
deriving DecidableEq

/-- Numeric stage of a lifecycle state along Active, Aborting, Closed,
used to express forward-only progress. -/
def HState.rank : HState → Nat
  | .active => 0
  | .aborting => 1
  | .closed => 2

/-- Modelled from the spec: the discrete interactions that can hit one
StreamHandle — a record arriving from the EventSource, the source ending
naturally, the source reporting an error, and the two phases of abort
(the consumer request, and teardown completing). -/
inductive Op (α ε : Type) where
  | record (v : α)
  | srcEnd
  | srcErr (e : ε)
  | beginAbort
  | finishAbort
deriving DecidableEq

/-- Modelled from the spec: one-shot resolution of a CompletionSignal —
the first resolution wins, a later attempt leaves the value unchanged. -/
def resolveOnce {ε : Type} (c : Option (Outcome ε)) (o : Outcome ε) :
    Option (Outcome ε) :=
  match c with
  | none => some o
  | some x => some x

/-- Modelled from the spec: one callback invocation in push mode; the
contract is (error?, value?), so a delivered record is (null, value) and
a terminal failure is a single (error, null) call. -/
inductive CallbackCall (α ε : Type) where
  | value (v : α)
  | error (e : ε)
deriving DecidableEq

/-- Modelled from the spec: a StreamHandle consumed in push mode via a
CallbackChannel (the configureLogger / listen style of
src/examples/listen.js).  calls is the ordered history of callback
invocations; completion is the CompletionSignal. -/
structure PushHandle (α ε : Type) where
  state : HState
  completion : Option (Outcome ε)
  calls : List (CallbackCall α ε)
deriving DecidableEq

/-- Modelled from the spec: open a fresh push-mode StreamHandle. -/
def pushOpen {α ε : Type} : PushHandle α ε :=
  ⟨.active, none, []⟩

/-- Modelled from the spec: effect of one interaction on a push-mode
handle.  A record is handed to the callback only while Active; natural
end and source error close the handle and resolve the signal (the error
additionally surfaces as one terminal callback call); abort transitions
Active to Aborting and teardown completion transitions Aborting to
Closed, resolving the signal with cancellation. -/
def pushStep {α ε : Type} (h : PushHandle α ε) : Op α ε → PushHandle α ε
  | .record v =>
    if h.state = .active then { h with calls := h.calls ++ [.value v] } else h
  | .srcEnd =>
    if h.state = .active then
      { h with state := .closed, completion := resolveOnce h.completion .success }
    else h
  | .srcErr e =>
    if h.state = .active then
      { h with state := .closed
               completion := resolveOnce h.completion (.failure e)
               calls := h.calls ++ [.error e] }
    else h
  | .beginAbort =>
    if h.state = .active then { h with state := .aborting } else h
  | .finishAbort =>
    if h.state = .aborting then
      { h with state := .closed, completion := resolveOnce h.completion .cancelled }
    else h

/-- Modelled from the spec: the full abort operation on a push handle —
the consumer request immediately followed by bounded teardown. -/
def pushAbort {α ε : Type} (h : PushHandle α ε) : PushHandle α ε :=
  pushStep (pushStep h .beginAbort) .finishAbort

/-- Run a push-mode handle from open over a sequence of interactions. -/
def pushRun {α ε : Type} (t : List (Op α ε)) : PushHandle α ε :=
  t.foldl pushStep pushOpen

/-- Modelled from the spec: a StreamHandle consumed in pull mode as a
PullStream (the Monitor.listen style of src/examples/monitor.js).
buffer holds produced-but-not-yet-pulled records; failErr records a
terminal source error to be surfaced by next. -/
structure PullHandle (α ε : Type) where
  state : HState
  completion : Option (Outcome ε)
  buffer : List α
  failErr : Option ε
deriving DecidableEq

/-- Modelled from the spec: open a fresh pull-mode StreamHandle. -/
def pullOpen {α ε : Type} : PullHandle α ε :=
  ⟨.active, none, [], none⟩

/-- Modelled from the spec: the possible resolutions of one next() call
on a PullStream: a record, EndOfStream, a terminal failure, or pending
(the call would suspend because the stream is still live and no record
is buffered). -/
inductive NextResult (α ε : Type) where
  | item (v : α)
  | endOfStream
  | failed (e : ε)
  | pending
deriving DecidableEq

/-- Whether a next() resolution delivers a record. -/
def NextResult.isItem {α ε : Type} : NextResult α ε → Bool
  | .item _ => true
  | _ => false

/-- Modelled from the spec: one next() call on a PullStream.  A buffered
record is returned first, preserving producer order; with an empty
buffer, a closed stream resolves immediately with the terminal error if
the source failed and EndOfStream otherwise, while a live stream would
suspend (pending). -/
def next {α ε : Type} (h : PullHandle α ε) : NextResult α ε × PullHandle α ε :=
  match h.buffer with
  | v :: rest => (.item v, { h with buffer := rest })
  | [] =>
    match h.state with
    | .closed =>
      match h.failErr with
      | some e => (.failed e, h)
      | none => (.endOfStream, h)
    | _ => (.pending, h)

/-- Modelled from the spec: effect of one interaction on a pull-mode
handle.  A record is buffered only while Active; natural end closes the
handle keeping buffered records available to the consumer; a source
error closes it recording the terminal error; abort drops
buffered-but-undelivered records, and teardown completion resolves the
signal with cancellation. -/
def pullStep {α ε : Type} (h : PullHandle α ε) : Op α ε → PullHandle α ε
  | .record v =>
    if h.state = .active then { h with buffer := h.buffer ++ [v] } else h
  | .srcEnd =>
    if h.state = .active then
      { h with state := .closed, completion := resolveOnce h.completion .success }
    else h
  | .srcErr e =>
    if h.state = .active then
      { h with state := .closed
               completion := resolveOnce h.completion (.failure e)
               failErr := some e }
    else h
  | .beginAbort =>
    if h.state = .active then { h with state := .aborting, buffer := [] } else h
  | .finishAbort =>
    if h.state = .aborting then
      { h with state := .closed, completion := resolveOnce h.completion .cancelled }
    else h

/-- Modelled from the spec: the full abort operation on a pull handle. -/
def pullAbort {α ε : Type} (h : PullHandle α ε) : PullHandle α ε :=
  pullStep (pullStep h .beginAbort) .finishAbort

/-- Run a pull-mode handle from open over a sequence of interactions. -/
def pullRun {α ε : Type} (t : List (Op α ε)) : PullHandle α ε :=
  t.foldl pullStep pullOpen

/-- Iterate next() over a given buffered tail of a pull handle,
collecting the delivered records and the resolution that finally stops
the iteration (the for-await style of consuming a PullStream). -/
def drainFrom {α ε : Type} (h : PullHandle α ε) :
    List α → List α × NextResult α ε
  | [] => ([], (next { h with buffer := [] }).1)
  | v :: rest =>
    let r := drainFrom h rest
    (v :: r.1, r.2)

/-- Consume a PullStream to exhaustion by repeated next() calls: the
records delivered in order, and the non-record resolution that ends the
loop. -/
def drain {α ε : Type} (h : PullHandle α ε) : List α × NextResult α ε :=
  drainFrom h h.buffer

/-- Modelled from the spec: the Monitor of src/examples/monitor.js — a
stateful wrapper owning zero or one active StreamHandle.  Handles carry
a numeric id so that a fresh handle is distinguishable from every
earlier one; superseded or ended handles move, in their final state,
into history. -/
structure Monitor (α ε : Type) where
  freshId : Nat
  current : Option (Nat × PullHandle α ε)
  history : List (Nat × PullHandle α ε)
deriving DecidableEq

/-- Modelled from the spec: a newly constructed Monitor, owning no
handle (Idle). -/
def Monitor.new {α ε : Type} : Monitor α ε :=
  ⟨0, none, []⟩

/-- Modelled from the spec: Monitor.listen — if a StreamHandle is
already active the prior one is aborted first, then a fresh pull-mode
handle is opened; at most one active subscription at a time. -/
def Monitor.listen {α ε : Type} (m : Monitor α ε) : Monitor α ε :=
  match m.current with
  | some (i, h) =>
    ⟨m.freshId + 1, some (m.freshId, pullOpen), m.history ++ [(i, pullAbort h)]⟩
  | none =>
    ⟨m.freshId + 1, some (m.freshId, pullOpen), m.history⟩

/-- Modelled from the spec: Monitor.abort — aborts the currently active
StreamHandle if any, a no-op otherwise. -/
def Monitor.abort {α ε : Type} (m : Monitor α ε) : Monitor α ε :=
  match m.current with
  | some (i, h) => ⟨m.freshId, none, m.history ++ [(i, pullAbort h)]⟩
  | none => m

/-- Modelled from the spec: interactions at Monitor level — the two
Monitor methods, and a source-driven interaction hitting the currently
active handle (when the handle closes, the Monitor returns to Idle and
the handle moves to history in its final state). -/
inductive MOp (α ε : Type) where
  | listen
  | abort
  | srcEvent (op : Op α ε)
deriving DecidableEq

/-- Modelled from the spec: effect of one Monitor-level interaction. -/
def mstep {α ε : Type} (m : Monitor α ε) : MOp α ε → Monitor α ε
  | .listen => m.listen
  | .abort => m.abort
  | .srcEvent op =>
    match m.current with
    | none => m
    | some (i, h) =>
      let h2 := pullStep h op
      if h2.state = .closed then
        ⟨m.freshId, none, m.history ++ [(i, h2)]⟩
      else
        ⟨m.freshId, some (i, h2), m.history⟩

/-- Run a Monitor from construction over a sequence of interactions. -/
def mrun {α ε : Type} (t : List (MOp α ε)) : Monitor α ε :=
  t.foldl mstep Monitor.new

/-- Two independently opened push-mode handles living side by side, as
in src/examples/listen.js (the logger handle and the devices handle). -/
def sysStep {α ε : Type} (s : PushHandle α ε × PushHandle α ε)
    (op : Bool × Op α ε) : PushHandle α ε × PushHandle α ε :=
  if op.1 then (s.1, pushStep s.2 op.2) else (pushStep s.1 op.2, s.2)

/-- Abort exactly one of two independently opened handles. -/
def sysAbort {α ε : Type} (b : Bool) (s : PushHandle α ε × PushHandle α ε) :
    PushHandle α ε × PushHandle α ε :=
  if b then (s.1, pushAbort s.2) else (pushAbort s.1, s.2)

/-- Whether a next() resolution is the suspended (blocking) one. -/
def NextResult.isPending {α ε : Type} : NextResult α ε → Bool
  | .pending => true
  | _ => false

/-- The CompletionSignal of a push handle is resolved exactly when the
handle is Closed. -/
def PushInv {α ε : Type} (h : PushHandle α ε) : Prop :=
  h.completion.isSome ↔ h.state = .closed

/-- The CompletionSignal of a pull handle is resolved exactly when the
handle is Closed. -/
def PullCInv {α ε : Type} (h : PullHandle α ε) : Prop :=
  h.completion.isSome ↔ h.state = .closed

/-- Conditions that the handle currently owned by a Monitor satisfies:
not yet Closed, signal unresolved, no terminal error recorded, and an
Aborting handle has already released its buffered records. -/
def CurOK {α ε : Type} (h : PullHandle α ε) : Prop :=
  h.state ≠ .closed ∧ h.completion = none ∧ h.failErr = none ∧
    (h.state = .aborting → h.buffer = [])

/-- Monitor invariant: every superseded or ended handle in history is
Closed and carries an id below the fresh counter; the current handle,
when present, satisfies CurOK and its id is below the fresh counter. -/
def MInv {α ε : Type} (m : Monitor α ε) : Prop :=
  (∀ p ∈ m.history, p.2.state = HState.closed ∧ p.1 < m.freshId) ∧
    (∀ i h, m.current = some (i, h) → CurOK h ∧ i < m.freshId)

/-- A fold preserves any property preserved by each step. -/
theorem foldl_inv {σ τ : Type} (P : σ → Prop) (f : σ → τ → σ)
    (hf : ∀ s x, P s → P (f s x)) :
    ∀ (t : List τ) (s : σ), P s → P (t.foldl f s) := by
  intro t
  induction t with
  | nil => exact fun s hs => hs
  | cons x t ih => exact fun s hs => ih _ (hf s x hs)

/-- A Closed push handle absorbs every further interaction. -/
theorem pushStep_closed {α ε : Type} {h : PushHandle α ε}
    (hc : h.state = .closed) (op : Op α ε) : pushStep h op = h := by
  cases op <;> simp [pushStep, hc]

/-- A Closed push handle absorbs every further interaction sequence. -/
theorem foldl_pushStep_closed {α ε : Type} {h : PushHandle α ε}
    (hc : h.state = .closed) (t : List (Op α ε)) : t.foldl pushStep h = h := by
  induction t with
  | nil => rfl
  | cons op t ih => rw [List.foldl_cons, pushStep_closed hc op]; exact ih

/-- A Closed pull handle absorbs every further interaction. -/
theorem pullStep_closed {α ε : Type} {h : PullHandle α ε}
    (hc : h.state = .closed) (op : Op α ε) : pullStep h op = h := by
  cases op <;> simp [pullStep, hc]

/-- A Closed pull handle absorbs every further interaction sequence. -/
theorem foldl_pullStep_closed {α ε : Type} {h : PullHandle α ε}
    (hc : h.state = .closed) (t : List (Op α ε)) : t.foldl pullStep h = h := by
  induction t with
  | nil => rfl
  | cons op t ih => rw [List.foldl_cons, pullStep_closed hc op]; exact ih

/-- Every interaction preserves the push completion invariant. -/
theorem pushStep_inv {α ε : Type} {h : PushHandle α ε}
    (hi : PushInv h) (op : Op α ε) : PushInv (pushStep h op) := by
  unfold PushInv at hi ⊢
  have hn : h.state ≠ .closed → h.completion = none := by
    intro hne
    cases hcomp : h.completion with
    | none => rfl
    | some o => exact absurd (hi.mp (by simp [hcomp])) hne
  cases op <;> cases hs : h.state <;>
    simp_all [pushStep, resolveOnce]

/-- The push completion invariant holds in every reachable state. -/
theorem pushRun_inv {α ε : Type} (t : List (Op α ε)) : PushInv (pushRun t) :=
  foldl_inv PushInv pushStep (fun _ op hi => pushStep_inv hi op) t pushOpen
    (by simp [PushInv, pushOpen])

/-- A resolved push CompletionSignal is never resolved a second time:
later interactions keep the same outcome. -/
theorem pushStep_completion_stable {α ε : Type} {h : PushHandle α ε}
    {o : Outcome ε} (hc : h.completion = some o) (op : Op α ε) :
    (pushStep h op).completion = some o := by
  cases op <;> cases hs : h.state <;> simp_all [pushStep, resolveOnce]

/-- Records arriving on an Active push handle are handed to the callback
one each, in arrival order. -/
theorem pushRecords {α ε : Type} (vs : List α) :
    ∀ (h : PushHandle α ε), h.state = .active →
      (vs.map Op.record).foldl pushStep h
        = { h with calls := h.calls ++ vs.map CallbackCall.value } := by
  induction vs with
  | nil => intro h _; simp
  | cons v vs ih =>
    intro h hs
    rw [List.map_cons, List.foldl_cons]
    have hstep : pushStep h (Op.record v)
        = { h with calls := h.calls ++ [CallbackCall.value v] } := by
      simp [pushStep, hs]
    rw [hstep, ih _ (by simp [hs])]
    simp

/-- Records arriving on an Active pull handle are buffered one each, in
arrival order. -/
theorem pullRecords {α ε : Type} (vs : List α) :
    ∀ (h : PullHandle α ε), h.state = .active →
      (vs.map Op.record).foldl pullStep h
        = { h with buffer := h.buffer ++ vs } := by
  induction vs with
  | nil => intro h _; simp
  | cons v vs ih =>
    intro h hs
    rw [List.map_cons, List.foldl_cons]
    have hstep : pullStep h (Op.record v)
        = { h with buffer := h.buffer ++ [v] } := by
      simp [pullStep, hs]
    rw [hstep, ih _ (by simp [hs])]
    simp

/-- Draining a handle yields exactly its buffered tail, then the
resolution of next() on the emptied handle. -/
theorem drainFrom_eq {α ε : Type} (h : PullHandle α ε) (l : List α) :
    drainFrom h l = (l, (next { h with buffer := [] }).1) := by
  induction l with
  | nil => rfl
  | cons v rest ih => simp [drainFrom, ih]

/-- Abort always lands the pull handle in Closed. -/
theorem pullAbort_state {α ε : Type} (h : PullHandle α ε) :
    (pullAbort h).state = .closed := by
  cases hs : h.state <;> simp [pullAbort, pullStep, hs]

/-- Abort always lands the push handle in Closed. -/
theorem pushAbort_state {α ε : Type} (h : PushHandle α ε) :
    (pushAbort h).state = .closed := by
  cases hs : h.state <;> simp [pushAbort, pushStep, hs]

/-- Abort never touches the recorded terminal source error. -/
theorem pullAbort_failErr {α ε : Type} (h : PullHandle α ε) :
    (pullAbort h).failErr = h.failErr := by
  cases hs : h.state <;> simp [pullAbort, pullStep, hs]

/-- Aborting the current handle of a Monitor resolves its signal with
the cancellation outcome. -/
theorem pullAbort_completion {α ε : Type} {h : PullHandle α ε}
    (hok : CurOK h) : (pullAbort h).completion = some Outcome.cancelled := by
  obtain ⟨h1, h2, _, _⟩ := hok
  cases hs : h.state with
  | active => simp [pullAbort, pullStep, hs, h2, resolveOnce]
  | aborting => simp [pullAbort, pullStep, hs, h2, resolveOnce]
  | closed => exact absurd hs h1

/-- Aborting the current handle of a Monitor leaves no buffered record
behind. -/
theorem pullAbort_buffer {α ε : Type} {h : PullHandle α ε}
    (hok : CurOK h) : (pullAbort h).buffer = [] := by
  obtain ⟨h1, _, _, h4⟩ := hok
  cases hs : h.state with
  | active => simp [pullAbort, pullStep, hs]
  | aborting => simp [pullAbort, pullStep, hs, h4 hs]
  | closed => exact absurd hs h1

/-- An interaction that does not close the current handle keeps it fit
to stay current. -/
theorem pullStep_curOK {α ε : Type} {h : PullHandle α ε}
    (hok : CurOK h) (op : Op α ε)
    (hnc : (pullStep h op).state ≠ .closed) : CurOK (pullStep h op) := by
  obtain ⟨h1, h2, h3, h4⟩ := hok
  cases op <;> cases hs : h.state <;>
    simp_all [pullStep, CurOK, resolveOnce]

/-- A freshly opened pull handle is fit to be the current handle. -/
theorem curOK_pullOpen {α ε : Type} : CurOK (pullOpen : PullHandle α ε) := by
  refine ⟨by simp [pullOpen], by simp [pullOpen], by simp [pullOpen], ?_⟩
  intro hs
  simp [pullOpen] at hs

/-- Every Monitor-level interaction preserves the Monitor invariant. -/
theorem mstep_inv {α ε : Type} {m : Monitor α ε}
    (hm : MInv m) (op : MOp α ε) : MInv (mstep m op) := by
  obtain ⟨hhist, hcur⟩ := hm
  cases op with
  | listen =>
    cases hc : m.current with
    | none =>
      have hred : mstep m MOp.listen
          = ⟨m.freshId + 1, some (m.freshId, pullOpen), m.history⟩ := by
        simp [mstep, Monitor.listen, hc]
      rw [hred]
      refine ⟨?_, ?_⟩
      · intro p hp
        exact ⟨(hhist p hp).1, Nat.lt_succ_of_lt (hhist p hp).2⟩
      · intro i h hi
        simp at hi
        obtain ⟨hi1, hi2⟩ := hi
        subst hi1; subst hi2
        exact ⟨curOK_pullOpen, Nat.lt_succ_self _⟩
    | some p =>
      obtain ⟨j, g⟩ := p
      have hred : mstep m MOp.listen
          = ⟨m.freshId + 1, some (m.freshId, pullOpen),
              m.history ++ [(j, pullAbort g)]⟩ := by
        simp [mstep, Monitor.listen, hc]
      rw [hred]
      refine ⟨?_, ?_⟩
      · intro q hq
        simp at hq
        rcases hq with hq | hq
        · exact ⟨(hhist q hq).1, Nat.lt_succ_of_lt (hhist q hq).2⟩
        · rw [hq]
          exact ⟨pullAbort_state g, Nat.lt_succ_of_lt (hcur j g hc).2⟩
      · intro i h hi
        simp at hi
        obtain ⟨hi1, hi2⟩ := hi
        subst hi1; subst hi2
        exact ⟨curOK_pullOpen, Nat.lt_succ_self _⟩
  | abort =>
    cases hc : m.current with
    | none =>
      have hred : mstep m MOp.abort = m := by
        simp [mstep, Monitor.abort, hc]
      rw [hred]
      exact ⟨hhist, hcur⟩
    | some p =>
      obtain ⟨j, g⟩ := p
      have hred : mstep m MOp.abort
          = ⟨m.freshId, none, m.history ++ [(j, pullAbort g)]⟩ := by
        simp [mstep, Monitor.abort, hc]
      rw [hred]
      refine ⟨?_, ?_⟩
      · intro q hq
        simp at hq
        rcases hq with hq | hq
        · exact hhist q hq
        · rw [hq]
          exact ⟨pullAbort_state g, (hcur j g hc).2⟩
      · intro i h hi
        simp at hi
  | srcEvent op =>
    cases hc : m.current with
    | none =>
      have hred : mstep m (MOp.srcEvent op) = m := by
        simp [mstep, hc]
      rw [hred]
      exact ⟨hhist, hcur⟩
    | some p =>
      obtain ⟨j, g⟩ := p
      by_cases hcl : (pullStep g op).state = HState.closed
      · have hred : mstep m (MOp.srcEvent op)
            = ⟨m.freshId, none, m.history ++ [(j, pullStep g op)]⟩ := by
          simp [mstep, hc, hcl]
        rw [hred]
        refine ⟨?_, ?_⟩
        · intro q hq
          simp at hq
          rcases hq with hq | hq
          · exact hhist q hq
          · rw [hq]
            exact ⟨hcl, (hcur j g hc).2⟩
        · intro i h hi
          simp at hi
      · have hred : mstep m (MOp.srcEvent op)
            = ⟨m.freshId, some (j, pullStep g op), m.history⟩ := by
          simp [mstep, hc, hcl]
        rw [hred]
        refine ⟨?_, ?_⟩
        · intro q hq
          exact hhist q hq
        · intro i h hi
          simp at hi
          obtain ⟨hi1, hi2⟩ := hi
          subst hi1; subst hi2
          exact ⟨pullStep_curOK (hcur j g hc).1 op hcl, (hcur j g hc).2⟩

/-- The Monitor invariant holds in every reachable Monitor state. -/
theorem mrun_inv {α ε : Type} (t : List (MOp α ε)) : MInv (mrun t) :=
  foldl_inv MInv mstep (fun _ op hm => mstep_inv hm op) t Monitor.new
    (by constructor <;> simp [Monitor.new])

/-- A push run of records followed by one further interaction. -/
theorem pushRun_records_then {α ε : Type} (vs : List α) (op : Op α ε) :
    pushRun (vs.map Op.record ++ [op])
      = pushStep ⟨.active, none, vs.map CallbackCall.value⟩ op := by
  rw [pushRun, List.foldl_append, pushRecords vs pushOpen rfl]
  simp [pushOpen]

/-- A pull run of records followed by one further interaction. -/
theorem pullRun_records_then {α ε : Type} (vs : List α) (op : Op α ε) :
    pullRun (vs.map Op.record ++ [op])
      = pullStep ⟨.active, none, vs, none⟩ op := by
  rw [pullRun, List.foldl_append, pullRecords vs pullOpen rfl]
  simp [pullOpen]

/-- C1: for every finite sequence of N records produced by the source, a
CallbackChannel consumer sees exactly N callback invocations, once per
record, in production order, and all of them precede any terminal call;
delivery is by atomic interleaved steps, so no two invocations overlap. -/
theorem C1_callback_delivery {α ε : Type} (vs : List α) (e : ε) :
    (pushRun ((vs.map Op.record ++ [Op.srcEnd]) : List (Op α ε))).calls
        = vs.map CallbackCall.value ∧
    (pushRun ((vs.map Op.record ++ [Op.srcEnd]) : List (Op α ε))).calls.length
        = vs.length ∧
    (pushRun ((vs.map Op.record ++ [Op.srcEnd]) : List (Op α ε))).completion
        = some Outcome.success ∧
    (pushRun (vs.map Op.record ++ [Op.srcErr e])).calls
        = vs.map CallbackCall.value ++ [CallbackCall.error e] := by
  refine ⟨?_, ?_, ?_, ?_⟩ <;>
    rw [pushRun_records_then] <;>
    simp [pushStep, resolveOnce]

/-- C5: abort is idempotent — on push handles, on pull handles and on
the Monitor, a second abort changes nothing (state, delivered history
and CompletionSignal included); abort on a Closed handle is a no-op and
Monitor.abort with no active StreamHandle is a no-op. -/
theorem C5_abort_idempotent {α ε : Type} (h : PushHandle α ε)
    (g : PullHandle α ε) (m : Monitor α ε) :
    pushAbort (pushAbort h) = pushAbort h ∧
    pullAbort (pullAbort g) = pullAbort g ∧
    Monitor.abort (Monitor.abort m) = Monitor.abort m ∧
    (h.state = .closed → pushAbort h = h) ∧
    (g.state = .closed → pullAbort g = g) ∧
    (m.current = none → Monitor.abort m = m) := by
  refine ⟨?_, ?_, ?_, ?_, ?_, ?_⟩
  · cases hs : h.state <;> simp [pushAbort, pushStep, hs]
  · cases hs : g.state <;> simp [pullAbort, pullStep, hs]
  · cases hc : m.current <;> simp [Monitor.abort, hc]
  · intro hs; simp [pushAbort, pushStep, hs]
  · intro hs; simp [pullAbort, pullStep, hs]
  · intro hc; simp [Monitor.abort, hc]

/-- C6: the lifecycle only moves forward along Active, Aborting, Closed —
no interaction lowers the stage — and a Closed handle absorbs every
interaction, so nothing further is delivered to the consumer. -/
theorem C6_monotone_lifecycle {α ε : Type} (h : PushHandle α ε)
    (g : PullHandle α ε) (op : Op α ε) :
    h.state.rank ≤ (pushStep h op).state.rank ∧
    g.state.rank ≤ (pullStep g op).state.rank ∧
    (h.state = .closed → pushStep h op = h) ∧
    (g.state = .closed → pullStep g op = g) := by
  refine ⟨?_, ?_, fun hc => pushStep_closed hc op, fun hc => pullStep_closed hc op⟩
  · cases op <;> cases hs : h.state <;>
      simp [pushStep, hs, HState.rank]
  · cases op <;> cases hs : g.state <;>
      simp [pullStep, hs, HState.rank]

/-- C8: when the source fails after producing some records, each record
reaches the consumer first and exactly one terminal error is surfaced:
the callback history is the records in order followed by one terminal
error call with nothing after it, the CompletionSignal carries the
failure, and in pull mode next() yields the records and then fails with
the error instead of returning EndOfStream. -/
theorem C8_failure_after_records {α ε : Type} (vs : List α) (e : ε) :
    (pushRun (vs.map Op.record ++ [Op.srcErr e])).calls
        = vs.map CallbackCall.value ++ [CallbackCall.error e] ∧
    (pushRun (vs.map Op.record ++ [Op.srcErr e])).completion
        = some (Outcome.failure e) ∧
    (∀ op, pushStep (pushRun (vs.map Op.record ++ [Op.srcErr e])) op
        = pushRun (vs.map Op.record ++ [Op.srcErr e])) ∧
    drain (pullRun (vs.map Op.record ++ [Op.srcErr e])) = (vs, NextResult.failed e) := by
  refine ⟨?_, ?_, ?_, ?_⟩
  · rw [pushRun_records_then]; simp [pushStep, resolveOnce]
  · rw [pushRun_records_then]; simp [pushStep, resolveOnce]
  · intro op
    refine pushStep_closed ?_ op
    rw [pushRun_records_then]; simp [pushStep]
  · rw [pullRun_records_then]
    simp [pullStep, resolveOnce, drain, drainFrom_eq, next]

/-- All interactions addressed to the first of two independent handles
leave the second untouched. -/
theorem sysRun_false_snd {α ε : Type} :
    ∀ (t : List (Op α ε)) (s : PushHandle α ε × PushHandle α ε),
      ((t.map (fun op => ((false : Bool), op))).foldl sysStep s).2 = s.2 := by
  intro t
  induction t with
  | nil => intro s; rfl
  | cons op t ih =>
    intro s
    rw [List.map_cons, List.foldl_cons, ih]
    simp [sysStep]

/-- All interactions addressed to the second of two independent handles
leave the first untouched. -/
theorem sysRun_true_fst {α ε : Type} :
    ∀ (t : List (Op α ε)) (s : PushHandle α ε × PushHandle α ε),
      ((t.map (fun op => ((true : Bool), op))).foldl sysStep s).1 = s.1 := by
  intro t
  induction t with
  | nil => intro s; rfl
  | cons op t ih =>
    intro s
    rw [List.map_cons, List.foldl_cons, ih]
    simp [sysStep]

/-- C10: two independently opened handles do not interfere — any
sequence of interactions addressed to one handle, and in particular
aborting it, leaves the other handle (its lifecycle state, delivered
events and CompletionSignal) unchanged. -/
theorem C10_handle_isolation {α ε : Type}
    (s : PushHandle α ε × PushHandle α ε) (t : List (Op α ε)) :
    ((t.map (fun op => ((false : Bool), op))).foldl sysStep s).2 = s.2 ∧
    ((t.map (fun op => ((true : Bool), op))).foldl sysStep s).1 = s.1 ∧
    (sysAbort false s).2 = s.2 ∧
    (sysAbort true s).1 = s.1 := by
  refine ⟨sysRun_false_snd t s, sysRun_true_fst t s, ?_, ?_⟩ <;> simp [sysAbort]

/-- Every interaction preserves the pull completion invariant. -/
theorem pullStep_cinv {α ε : Type} {h : PullHandle α ε}
    (hi : PullCInv h) (op : Op α ε) : PullCInv (pullStep h op) := by
  unfold PullCInv at hi ⊢
  have hn : h.state ≠ .closed → h.completion = none := by
    intro hne
    cases hcomp : h.completion with
    | none => rfl
    | some o => exact absurd (hi.mp (by simp [hcomp])) hne
  cases op <;> cases hs : h.state <;>
    simp_all [pullStep, resolveOnce]

/-- The pull completion invariant holds in every reachable state. -/
theorem pullRun_cinv {α ε : Type} (t : List (Op α ε)) : PullCInv (pullRun t) :=
  foldl_inv PullCInv pullStep (fun _ op hi => pullStep_cinv hi op) t pullOpen
    (by simp [PullCInv, pullOpen])

/-- A resolved pull CompletionSignal is never resolved a second time. -/
theorem pullStep_completion_stable {α ε : Type} {h : PullHandle α ε}
    {o : Outcome ε} (hc : h.completion = some o) (op : Op α ε) :
    (pullStep h op).completion = some o := by
  cases op <;> cases hs : h.state <;> simp_all [pullStep, resolveOnce]

/-- An unresolved signal on a non-Closed push handle. -/
theorem pushInv_open_none {α ε : Type} {h : PushHandle α ε}
    (hi : PushInv h) (hs : h.state ≠ .closed) : h.completion = none := by
  cases hcomp : h.completion with
  | none => rfl
  | some o => exact absurd (hi.mp (by simp [hcomp])) hs

/-- An unresolved signal on a non-Closed pull handle. -/
theorem pullCInv_open_none {α ε : Type} {h : PullHandle α ε}
    (hi : PullCInv h) (hs : h.state ≠ .closed) : h.completion = none := by
  cases hcomp : h.completion with
  | none => rfl
  | some o => exact absurd (hi.mp (by simp [hcomp])) hs

/-- next() on a Closed handle with an empty buffer and no recorded
failure resolves with EndOfStream. -/
theorem next_end {α ε : Type} {g : PullHandle α ε} (hb : g.buffer = [])
    (hs : g.state = .closed) (hf : g.failErr = none) :
    (next g).1 = NextResult.endOfStream := by
  have h2 : (next g).1
      = (next (⟨g.state, g.completion, g.buffer, g.failErr⟩ : PullHandle α ε)).1 := rfl
  rw [h2, hb, hs, hf]
  rfl

/-- next() on a Closed handle with an empty buffer and a recorded
failure resolves with that failure. -/
theorem next_failed {α ε : Type} {g : PullHandle α ε} {e : ε} (hb : g.buffer = [])
    (hs : g.state = .closed) (hf : g.failErr = some e) :
    (next g).1 = NextResult.failed e := by
  have h2 : (next g).1
      = (next (⟨g.state, g.completion, g.buffer, g.failErr⟩ : PullHandle α ε)).1 := rfl
  rw [h2, hb, hs, hf]
  rfl

/-- next() on a Closed handle never suspends. -/
theorem next_not_pending {α ε : Type} {g : PullHandle α ε}
    (hs : g.state = .closed) : ((next g).1).isPending = false := by
  have h2 : (next g).1
      = (next (⟨g.state, g.completion, g.buffer, g.failErr⟩ : PullHandle α ε)).1 := rfl
  rw [h2, hs]
  cases hb : g.buffer with
  | nil => cases hf : g.failErr <;> rfl
  | cons v rest => rfl

/-- Draining an empty-buffer handle stops at once with the resolution
of next(). -/
theorem drain_of_empty {α ε : Type} {g : PullHandle α ε} (hb : g.buffer = []) :
    drain g = ([], (next g).1) := by
  have h2 : drain g = drainFrom g g.buffer := rfl
  rw [h2, hb, drainFrom_eq]
  have h3 : ({ g with buffer := [] } : PullHandle α ε) = g := by
    rw [← hb]
  rw [h3]

/-- C2: the CompletionSignal is resolved exactly once with exactly one
outcome: once resolved, no later interaction changes it; it is resolved
precisely when the handle is Closed; and each of the three terminal
conditions (natural end, source failure, abort) resolves it with its own
outcome — success, the propagated failure, or cancellation — in both
push and pull mode. -/
theorem C2_completion_resolution {α ε : Type} (t : List (Op α ε)) (e : ε) :
    (∀ op o, (pushRun t).completion = some o →
        (pushStep (pushRun t) op).completion = some o) ∧
    ((pushRun t).completion.isSome ↔ (pushRun t).state = .closed) ∧
    ((pushRun t).state = .active →
        (pushStep (pushRun t) Op.srcEnd).completion = some Outcome.success ∧
        (pushStep (pushRun t) (Op.srcErr e)).completion = some (Outcome.failure e) ∧
        (pushAbort (pushRun t)).completion = some Outcome.cancelled) ∧
    ((pushRun t).state = .aborting →
        (pushAbort (pushRun t)).completion = some Outcome.cancelled) ∧
    (∀ op o, (pullRun t).completion = some o →
        (pullStep (pullRun t) op).completion = some o) ∧
    ((pullRun t).completion.isSome ↔ (pullRun t).state = .closed) ∧
    ((pullRun t).state = .active →
        (pullStep (pullRun t) Op.srcEnd).completion = some Outcome.success ∧
        (pullStep (pullRun t) (Op.srcErr e)).completion = some (Outcome.failure e) ∧
        (pullAbort (pullRun t)).completion = some Outcome.cancelled) := by
  have hpinv := pushRun_inv (α := α) (ε := ε) t
  have hlinv := pullRun_cinv (α := α) (ε := ε) t
  refine ⟨fun op o hc => pushStep_completion_stable hc op, hpinv, ?_, ?_,
    fun op o hc => pullStep_completion_stable hc op, hlinv, ?_⟩
  · intro hs
    have hnone := pushInv_open_none hpinv (by simp [hs])
    refine ⟨?_, ?_, ?_⟩ <;> simp [pushAbort, pushStep, hs, hnone, resolveOnce]
  · intro hs
    have hnone := pushInv_open_none hpinv (by simp [hs])
    simp [pushAbort, pushStep, hs, hnone, resolveOnce]
  · intro hs
    have hnone := pullCInv_open_none hlinv (by simp [hs])
    refine ⟨?_, ?_, ?_⟩ <;> simp [pullAbort, pullStep, hs, hnone, resolveOnce]

/-- Witness for C2 at a concrete one-record trace. -/
theorem C2_completion_resolution_witness :
    (pushRun ([Op.record 3] : List (Op Nat Nat))).state = HState.active ∧
    (pushStep (pushRun ([Op.record 3] : List (Op Nat Nat))) Op.srcEnd).completion
        = some Outcome.success ∧
    (pushAbort (pushRun ([Op.record 3] : List (Op Nat Nat)))).completion
        = some Outcome.cancelled ∧
    (pullAbort (pullRun ([Op.record 3] : List (Op Nat Nat)))).completion
        = some Outcome.cancelled := by
  have hmain := C2_completion_resolution ([Op.record 3] : List (Op Nat Nat)) 7
  exact ⟨by decide, (hmain.2.2.1 (by decide)).1, (hmain.2.2.1 (by decide)).2.2,
    (hmain.2.2.2.2.2.2 (by decide)).2.2⟩

/-- C3: after abort has completed, nothing further is observed by the
consumer: the push-mode callback history never grows again whatever the
source still does, and in pull mode next() on a handle aborted through
its owning Monitor never delivers a record again, whatever the source
still does. -/
theorem C3_no_observation_after_abort {α ε : Type} (t t2 : List (Op α ε))
    (tm : List (MOp α ε)) (i : Nat) (h : PullHandle α ε) :
    (t2.foldl pushStep (pushAbort (pushRun t))).calls
        = (pushAbort (pushRun t)).calls ∧
    ((mrun tm).current = some (i, h) →
        ∀ t3 : List (Op α ε),
          ((next (t3.foldl pullStep (pullAbort h))).1).isItem = false) := by
  constructor
  · rw [foldl_pushStep_closed (pushAbort_state (pushRun t)) t2]
  · intro hc t3
    have hok := ((mrun_inv tm).2 i h hc).1
    rw [foldl_pullStep_closed (pullAbort_state h) t3]
    rw [next_end (pullAbort_buffer hok) (pullAbort_state h)
      (by rw [pullAbort_failErr]; exact hok.2.2.1)]
    rfl

/-- Witness for C3 on the Monitor with a freshly listened handle. -/
theorem C3_no_observation_after_abort_witness :
    ((next (([Op.record 5] : List (Op Nat Nat)).foldl pullStep
        (pullAbort pullOpen))).1).isItem = false := by
  have hmain := C3_no_observation_after_abort ([] : List (Op Nat Nat)) []
      [MOp.listen] 0 pullOpen
  exact hmain.2 (by decide) [Op.record 5]

/-- C4: once a PullStream has ended, next() never suspends; with the
buffer drained it resolves with EndOfStream when the stream ended
naturally or by abort and with the terminal error when the source
failed; and Monitor.abort leaves its handle so that any pending or
future next(), whatever the source still does, resolves with
EndOfStream. -/
theorem C4_next_never_blocks_after_end {α ε : Type} (t : List (Op α ε)) (e : ε)
    (tm : List (MOp α ε)) (i : Nat) (h : PullHandle α ε) :
    ((pullRun t).state = .closed → ((next (pullRun t)).1).isPending = false) ∧
    ((pullRun t).state = .closed → (pullRun t).buffer = [] →
        (pullRun t).failErr = none →
        (next (pullRun t)).1 = NextResult.endOfStream) ∧
    ((pullRun t).state = .closed → (pullRun t).buffer = [] →
        (pullRun t).failErr = some e →
        (next (pullRun t)).1 = NextResult.failed e) ∧
    ((mrun tm).current = some (i, h) →
        ((mrun tm).abort).history = (mrun tm).history ++ [(i, pullAbort h)] ∧
        ∀ t3 : List (Op α ε),
          (next (t3.foldl pullStep (pullAbort h))).1 = NextResult.endOfStream) := by
  refine ⟨fun hs => next_not_pending hs,
    fun hs hb hf => next_end hb hs hf,
    fun hs hb hf => next_failed hb hs hf, ?_⟩
  intro hc
  have hok := ((mrun_inv tm).2 i h hc).1
  constructor
  · simp [Monitor.abort, hc]
  · intro t3
    rw [foldl_pullStep_closed (pullAbort_state h) t3]
    exact next_end (pullAbort_buffer hok) (pullAbort_state h)
      (by rw [pullAbort_failErr]; exact hok.2.2.1)

/-- Witness for C4 at concrete ended, failed and aborted streams. -/
theorem C4_next_never_blocks_after_end_witness :
    (next (pullRun ([Op.srcEnd] : List (Op Nat Nat)))).1
        = NextResult.endOfStream ∧
    (next (pullRun ([Op.srcErr 7] : List (Op Nat Nat)))).1
        = NextResult.failed 7 ∧
    (next (([] : List (Op Nat Nat)).foldl pullStep (pullAbort pullOpen))).1
        = NextResult.endOfStream := by
  have h1 := C4_next_never_blocks_after_end ([Op.srcEnd] : List (Op Nat Nat)) 7
      [MOp.listen] 0 pullOpen
  have h2 := C4_next_never_blocks_after_end ([Op.srcErr 7] : List (Op Nat Nat)) 7
      [MOp.listen] 0 pullOpen
  exact ⟨h1.2.1 (by decide) (by decide) (by decide),
    h2.2.2.1 (by decide) (by decide) (by decide),
    (h1.2.2.2 (by decide)).2 []⟩

/-- C7: a Monitor holds at most one active StreamHandle — every
superseded or ended handle is Closed; listen() on a listening Monitor
aborts the prior handle, whose CompletionSignal resolves with the
cancellation outcome, and opens a fresh handle whose id differs from the
prior one and from every earlier handle; listen() after an end also
opens a fresh handle rather than resuming anything. -/
theorem C7_single_active_subscription {α ε : Type} (tm : List (MOp α ε))
    (i : Nat) (h : PullHandle α ε) :
    (∀ p ∈ (mrun tm).history, p.2.state = HState.closed) ∧
    ((mrun tm).current = some (i, h) →
        ((mrun tm).listen).current = some ((mrun tm).freshId, pullOpen) ∧
        ((mrun tm).listen).history = (mrun tm).history ++ [(i, pullAbort h)] ∧
        (pullAbort h).completion = some Outcome.cancelled ∧
        i ≠ (mrun tm).freshId ∧
        (∀ p ∈ (mrun tm).history, p.1 ≠ (mrun tm).freshId)) ∧
    ((mrun tm).current = none →
        ((mrun tm).listen).current = some ((mrun tm).freshId, pullOpen)) := by
  obtain ⟨hhist, hcur⟩ := mrun_inv (α := α) (ε := ε) tm
  refine ⟨fun p hp => (hhist p hp).1, ?_, ?_⟩
  · intro hc
    refine ⟨?_, ?_, pullAbort_completion (hcur i h hc).1, ?_, ?_⟩
    · simp [Monitor.listen, hc]
    · simp [Monitor.listen, hc]
    · exact Nat.ne_of_lt (hcur i h hc).2
    · intro p hp
      exact Nat.ne_of_lt (hhist p hp).2
  · intro hc
    simp [Monitor.listen, hc]

/-- Witness for C7 on a Monitor that is already listening. -/
theorem C7_single_active_subscription_witness :
    ((mrun ([MOp.listen] : List (MOp Nat Nat))).listen).current
        = some (1, pullOpen) ∧
    (pullAbort (pullOpen : PullHandle Nat Nat)).completion
        = some Outcome.cancelled := by
  have hmain := C7_single_active_subscription ([MOp.listen] : List (MOp Nat Nat))
      0 pullOpen
  have h2 := hmain.2.1 (by decide)
  exact ⟨h2.1.trans (by decide), h2.2.2.1⟩

/-- C9: the PullStream is consumed by iteration — each next() call on a
non-empty stream yields exactly the head record and the stream advanced
by one — and after the owning Monitor aborts the handle, iterating it to
exhaustion ends normally with EndOfStream, never with a failure. -/
theorem C9_async_iteration {α ε : Type} (g : PullHandle α ε) (v : α)
    (l : List α) (tm : List (MOp α ε)) (i : Nat) (h : PullHandle α ε) :
    (g.buffer = v :: l → next g = (NextResult.item v, { g with buffer := l })) ∧
    (g.buffer = v :: l →
        drain g = (v :: (drain { g with buffer := l }).1,
          (drain { g with buffer := l }).2)) ∧
    ((mrun tm).current = some (i, h) →
        drain (pullAbort h) = ([], NextResult.endOfStream)) := by
  refine ⟨?_, ?_, ?_⟩
  · intro hbuf
    have h2 : next g
        = next (⟨g.state, g.completion, g.buffer, g.failErr⟩ : PullHandle α ε) := rfl
    rw [h2, hbuf]
    rfl
  · intro hbuf
    have h2 : drain g = drainFrom g g.buffer := rfl
    rw [h2, hbuf, drainFrom_eq]
    have h4 : drain ({ g with buffer := l } : PullHandle α ε)
        = drainFrom { g with buffer := l } l := rfl
    rw [h4, drainFrom_eq]
  · intro hc
    have hok := ((mrun_inv tm).2 i h hc).1
    rw [drain_of_empty (pullAbort_buffer hok),
      next_end (pullAbort_buffer hok) (pullAbort_state h)
        (by rw [pullAbort_failErr]; exact hok.2.2.1)]

/-- Witness for C9 at a concrete buffered handle and a listening
Monitor. -/
theorem C9_async_iteration_witness :
    next (⟨HState.active, none, [4, 5], none⟩ : PullHandle Nat Nat)
        = (NextResult.item 4, ⟨HState.active, none, [5], none⟩) ∧
    drain (pullAbort (pullOpen : PullHandle Nat Nat))
        = ([], NextResult.endOfStream) := by
  have hmain := C9_async_iteration
      (⟨HState.active, none, [4, 5], none⟩ : PullHandle Nat Nat) 4 [5]
      ([MOp.listen] : List (MOp Nat Nat)) 0 pullOpen
  exact ⟨(hmain.1 (by decide)).trans (by decide), hmain.2.2 (by decide)⟩

/-- Witness for C5 on a Closed handle and an Idle Monitor. -/
theorem C5_abort_idempotent_witness :
    pushAbort (⟨.closed, some Outcome.success, []⟩ : PushHandle Nat Nat)
        = ⟨.closed, some Outcome.success, []⟩ ∧
    Monitor.abort (Monitor.new : Monitor Nat Nat) = Monitor.new := by
  have hmain := C5_abort_idempotent
      (⟨.closed, some Outcome.success, []⟩ : PushHandle Nat Nat)
      (pullOpen : PullHandle Nat Nat) (Monitor.new : Monitor Nat Nat)
  exact ⟨hmain.2.2.2.1 (by decide), hmain.2.2.2.2.2 (by decide)⟩

/-- Witness for C6 on a Closed handle. -/
theorem C6_monotone_lifecycle_witness :
    pushStep (⟨.closed, some Outcome.success, []⟩ : PushHandle Nat Nat)
        (Op.record 4) = ⟨.closed, some Outcome.success, []⟩ := by
  have hmain := C6_monotone_lifecycle
      (⟨.closed, some Outcome.success, []⟩ : PushHandle Nat Nat)
      (pullOpen : PullHandle Nat Nat) (Op.record 4)
  exact hmain.2.2.1 (by decide)

end SerialDetect
